import Mathlib

/-!
# Verification of the e-commerce data-operations layer (`app.py`)

A shallow embedding of the data model and service operations of the
single-store e-commerce application (SQLite/Streamlit, `app.py`), together
with theorems settling the specification's claims about it.

Modelling conventions:
* Python strings are sequences of Unicode code points, modelled as `List Char`.
* SQL `DECIMAL` money values (prices, subtotals, totals) are modelled as `ℚ`.
* Python `int` quantities are modelled as `Int` (SQLite `INTEGER` columns have
  no sign constraint; `stock_quantity` can in fact go negative).
* Each table is a list of rows in rowid (insertion) order; `AUTOINCREMENT`
  surrogate keys are modelled by `next_…_id` counters starting at 1.
* `sqlite3` in Python runs DML statements inside an implicit transaction that
  persists only at `conn.commit()`; an exception skips the commit and the
  uncommitted statements are rolled back when the connection is discarded.
  `create_order` is therefore modelled with an explicit statement list, a
  failure-injection index, and a commit-at-the-end semantics.
-/

namespace ECom

/-! ## Python string primitives (strings as lists of code points) -/

/-- Whitespace recognised by Python `str.strip()` (the ASCII part, which is
what the application's inputs use). -/
def pyIsSpace (c : Char) : Bool :=
  c = ' ' || c = '\t' || c = '\n' || c = '\r' || c = '\x0b' || c = '\x0c'

/-- Python `str.lstrip()`. -/
def pyLStrip (s : List Char) : List Char := s.dropWhile pyIsSpace

/-- Python `str.rstrip()`. -/
def pyRStrip (s : List Char) : List Char := (s.reverse.dropWhile pyIsSpace).reverse

/-- Python `str.strip()`: drop leading and trailing whitespace. -/
def pyStrip (s : List Char) : List Char := pyRStrip (pyLStrip s)

/-- Python `str.upper()` restricted to characters whose uppercase image is the
single-character ASCII one (all characters the application's query guard is
concerned with). -/
def pyUpper (s : List Char) : List Char := s.map Char.toUpper

/-! ## Ad-hoc query gateway (app.py lines 818–835)

The Database tab accepts a raw query string and runs
`pd.read_sql(custom_query, conn)` only when
`custom_query.strip().upper().startswith('SELECT')`; otherwise it shows an
error and executes nothing. -/

/-- Embeds the custom-SQL guard at app.py:823–835: returns `some q` (the query
that is handed to `pd.read_sql`) when the guard
`custom_query.strip().upper().startswith('SELECT')` accepts, and `none`
(rejection, nothing executed) otherwise. -/
def executeCustomQuery (q : List Char) : Option (List Char) :=
  if List.isPrefixOf ("SELECT".toList) (pyUpper (pyStrip q)) then some q else none

/-- Spec-side notion, following the specification's words: case-insensitive
equality of two characters. -/
def ciCharEq (a b : Char) : Bool := a.toUpper = b.toUpper

/-- Spec-side notion, following the specification's words: `s` case-insensitively
begins with the keyword `p`. -/
def ciStartsWith : List Char → List Char → Bool
  | [], _ => true
  | _ :: _, [] => false
  | a :: as, b :: bs => ciCharEq a b && ciStartsWith as bs


/-! ## Case-insensitive regex search fragment (pandas `str.contains`)

The Shop tab filters products with
`products['product_name'].str.contains(search, case=False)` (app.py:584).
pandas `Series.str.contains` treats its argument as a *regular expression*
(`regex=True` default) and `case=False` adds `re.IGNORECASE`. -/

/-- Case-insensitive character equality as used by `re.IGNORECASE` on ASCII. -/
def reCICharEq (a b : Char) : Bool := a.toLower = b.toLower

/-- Match the pattern at the head of the text: literal characters compare
case-insensitively; the metacharacter `.` matches any character except a
newline.  Together with `reSearchCI` this embeds Python `re.search` with
`re.IGNORECASE` for the fragment of patterns built from literal characters
and `.` — the fragment exercised by the application's search box. -/
def reMatchHere : List Char → List Char → Bool
  | [], _ => true
  | _ :: _, [] => false
  | p :: ps, c :: cs =>
    (if p = '.' then c ≠ '\n' else reCICharEq p c) && reMatchHere ps cs

/-- Python `re.search` with `re.IGNORECASE` (pattern fragment of literals and
`.`): the pattern matches at some position of the text. -/
def reSearchCI (pat : List Char) : List Char → Bool
  | [] => reMatchHere pat []
  | c :: cs => reMatchHere pat (c :: cs) || reSearchCI pat cs

/-- Spec-side notion, following the specification's words: `pat` occurs in `s`
as a case-insensitive substring (matched at the head here). -/
def ciSubstrHere : List Char → List Char → Bool
  | [], _ => true
  | _ :: _, [] => false
  | p :: ps, c :: cs => reCICharEq p c && ciSubstrHere ps cs

/-- Spec-side notion, following the specification's words: `pat` occurs
somewhere in `s` as a case-insensitive substring. -/
def ciSubstr (pat : List Char) : List Char → Bool
  | [] => ciSubstrHere pat []
  | c :: cs => ciSubstrHere pat (c :: cs) || ciSubstr pat cs

/-- The regular-expression metacharacters of Python `re`. -/
def isRegexMeta (c : Char) : Bool :=
  c = '.' || c = '^' || c = '$' || c = '*' || c = '+' || c = '?' ||
  c = '{' || c = '}' || c = '[' || c = ']' || c = '(' || c = ')' ||
  c = '|' || c = '\\'



/-! ## Password hashing (app.py:135–136)

`hash_password` is `hashlib.sha256(password.encode()).hexdigest()`: the
SHA-256 digest, in lowercase hexadecimal, of the UTF-8 encoding of the
password.  SHA-256 (FIPS 180-4) is implemented below over `Nat` words reduced
modulo `2^32`. -/

/-- UTF-8 encoding of one Unicode scalar value (Python `str.encode()`). -/
def utf8EncodeChar (c : Char) : List Nat :=
  let n := c.toNat
  if n < 128 then [n]
  else if n < 2048 then [192 + n / 64, 128 + n % 64]
  else if n < 65536 then [224 + n / 4096, 128 + (n / 64) % 64, 128 + n % 64]
  else [240 + n / 262144, 128 + (n / 4096) % 64, 128 + (n / 64) % 64, 128 + n % 64]

/-- UTF-8 encoding of a string (Python `str.encode()`). -/
def utf8Bytes (s : List Char) : List Nat := (s.map utf8EncodeChar).flatten

/-- Reduce to a 32-bit word. -/
def w32 (n : Nat) : Nat := n % 4294967296

/-- 32-bit right rotation. -/
def rotr (k x : Nat) : Nat := w32 ((x >>> k) ||| (x <<< (32 - k)))

/-- 32-bit bitwise complement. -/
def bnot32 (x : Nat) : Nat := x ^^^ 4294967295

/-- The SHA-256 round constants (FIPS 180-4 section 4.2.2), in decimal. -/
def sha256K : List Nat :=
  [1116352408, 1899447441, 3049323471, 3921009573, 961987163,
   1508970993, 2453635748, 2870763221, 3624381080, 310598401,
   607225278, 1426881987, 1925078388, 2162078206, 2614888103,
   3248222580, 3835390401, 4022224774, 264347078, 604807628,
   770255983, 1249150122, 1555081692, 1996064986, 2554220882,
   2821834349, 2952996808, 3210313671, 3336571891, 3584528711,
   113926993, 338241895, 666307205, 773529912, 1294757372,
   1396182291, 1695183700, 1986661051, 2177026350, 2456956037,
   2730485921, 2820302411, 3259730800, 3345764771, 3516065817,
   3600352804, 4094571909, 275423344, 430227734, 506948616,
   659060556, 883997877, 958139571, 1322822218, 1537002063,
   1747873779, 1955562222, 2024104815, 2227730452, 2361852424,
   2428436474, 2756734187, 3204031479, 3329325298]

/-- The SHA-256 initial hash value (FIPS 180-4 section 5.3.3), in decimal. -/
def sha256H0 : List Nat :=
  [1779033703, 3144134277, 1013904242, 2773480762, 1359893119,
   2600822924, 528734635, 1541459225]

/-- A 64-bit value as eight big-endian bytes. -/
def be64 (n : Nat) : List Nat :=
  [(n >>> 56) % 256, (n >>> 48) % 256, (n >>> 40) % 256, (n >>> 32) % 256,
   (n >>> 24) % 256, (n >>> 16) % 256, (n >>> 8) % 256, n % 256]

/-- SHA-256 message padding: append `0x80`, zero bytes to 56 mod 64, and the
message bit length as a big-endian 64-bit value. -/
def sha256Pad (msg : List Nat) : List Nat :=
  let len := msg.length
  let zeros := (120 - ((len + 1) % 64)) % 64
  msg ++ 128 :: List.replicate zeros 0 ++ be64 (8 * len)

/-- Split into 64-byte blocks (fuel-based structural recursion). -/
def chunks64Go : Nat → List Nat → List (List Nat)
  | 0, _ => []
  | _, [] => []
  | fuel + 1, x :: xs => ((x :: xs).take 64) :: chunks64Go fuel ((x :: xs).drop 64)

/-- Split a byte list into 64-byte blocks. -/
def chunks64 (l : List Nat) : List (List Nat) := chunks64Go l.length l

/-- Big-endian 4-byte groups to 32-bit words. -/
def bytesToWords : List Nat → List Nat
  | a :: b :: c :: d :: rest => (a * 16777216 + b * 65536 + c * 256 + d) :: bytesToWords rest
  | _ => []

def smallSigma0 (x : Nat) : Nat := rotr 7 x ^^^ rotr 18 x ^^^ (x >>> 3)

def smallSigma1 (x : Nat) : Nat := rotr 17 x ^^^ rotr 19 x ^^^ (x >>> 10)

def bigSigma0 (x : Nat) : Nat := rotr 2 x ^^^ rotr 13 x ^^^ rotr 22 x

def bigSigma1 (x : Nat) : Nat := rotr 6 x ^^^ rotr 11 x ^^^ rotr 25 x

/-- Extend the 16 block words to the 64-entry message schedule. -/
def extendW : Nat → List Nat → List Nat
  | 0, ws => ws
  | k + 1, ws =>
    let n := ws.length
    let next := w32 (smallSigma1 (ws.getD (n - 2) 0) + ws.getD (n - 7) 0 +
                     smallSigma0 (ws.getD (n - 15) 0) + ws.getD (n - 16) 0)
    extendW k (ws ++ [next])

/-- The eight working variables of the SHA-256 compression loop. -/
structure Sha256State where
  a : Nat
  b : Nat
  c : Nat
  d : Nat
  e : Nat
  f : Nat
  g : Nat
  h : Nat

/-- One round of the SHA-256 compression function. -/
def sha256Round (st : Sha256State) (kw : Nat × Nat) : Sha256State :=
  let t1 := w32 (st.h + bigSigma1 st.e + ((st.e &&& st.f) ^^^ (bnot32 st.e &&& st.g)) + kw.1 + kw.2)
  let t2 := w32 (bigSigma0 st.a + ((st.a &&& st.b) ^^^ (st.a &&& st.c) ^^^ (st.b &&& st.c)))
  { a := w32 (t1 + t2), b := st.a, c := st.b, d := st.c,
    e := w32 (st.d + t1), f := st.e, g := st.f, h := st.g }

/-- Compress one 64-byte block into the running hash (eight 32-bit words). -/
def sha256Block (h : List Nat) (block : List Nat) : List Nat :=
  let ws := extendW 48 (bytesToWords block)
  let st0 : Sha256State :=
    { a := h.getD 0 0, b := h.getD 1 0, c := h.getD 2 0, d := h.getD 3 0,
      e := h.getD 4 0, f := h.getD 5 0, g := h.getD 6 0, h := h.getD 7 0 }
  let st := (sha256K.zip ws).foldl sha256Round st0
  [w32 (h.getD 0 0 + st.a), w32 (h.getD 1 0 + st.b), w32 (h.getD 2 0 + st.c),
   w32 (h.getD 3 0 + st.d), w32 (h.getD 4 0 + st.e), w32 (h.getD 5 0 + st.f),
   w32 (h.getD 6 0 + st.g), w32 (h.getD 7 0 + st.h)]

/-- SHA-256 digest of a byte string, as eight 32-bit words. -/
def sha256Words (msg : List Nat) : List Nat :=
  (chunks64 (sha256Pad msg)).foldl sha256Block sha256H0

/-- Lowercase hexadecimal digit. -/
def hexDigitChar (n : Nat) : Char :=
  if n < 10 then Char.ofNat (48 + n) else Char.ofNat (87 + n)

/-- A 32-bit word as eight lowercase hex characters. -/
def wordToHex (w : Nat) : List Char :=
  [hexDigitChar ((w >>> 28) % 16), hexDigitChar ((w >>> 24) % 16),
   hexDigitChar ((w >>> 20) % 16), hexDigitChar ((w >>> 16) % 16),
   hexDigitChar ((w >>> 12) % 16), hexDigitChar ((w >>> 8) % 16),
   hexDigitChar ((w >>> 4) % 16), hexDigitChar (w % 16)]

/-- `hashlib.sha256(bytes).hexdigest()`. -/
def sha256Hex (msg : List Nat) : List Char := ((sha256Words msg).map wordToHex).flatten

/-- Embeds `hash_password` (app.py:135–136):
`hashlib.sha256(password.encode()).hexdigest()`. -/
def hash_password (password : List Char) : List Char := sha256Hex (utf8Bytes password)

/-! ## Sorting (SQL `ORDER BY`, pandas `sort_values`)

`ORDER BY` clauses and `sort_values` calls are modelled by insertion sort with
a boolean `le` relation; the relative order of ties is unspecified by SQL and
pandas alike, and every theorem below compares against this same model. -/

/-- Insert `x` into `l` before the first element `y` with `le x y`. -/
def insertLe (le : α → α → Bool) (x : α) : List α → List α
  | [] => [x]
  | y :: ys => if le x y then x :: y :: ys else y :: insertLe le x ys

/-- Insertion sort by a boolean relation. -/
def sortLe (le : α → α → Bool) : List α → List α
  | [] => []
  | x :: xs => insertLe le x (sortLe le xs)




/-! ## Data model (init_database, app.py:28–132)

Each table is a list of rows in rowid order; `AUTOINCREMENT` keys are the
`next_…_id` counters.  `DB.now` stands for `CURRENT_TIMESTAMP`. -/

/-- Row of `categories` (app.py:34–41). -/
structure Category where
  category_id : Nat
  category_name : List Char
  description : List Char
deriving Repr, DecidableEq

/-- Row of `products` (app.py:43–56).  `stock_quantity` is a plain SQLite
`INTEGER DEFAULT 0` with no check constraint, so it is an `Int`. -/
structure Product where
  product_id : Nat
  product_name : List Char
  category_id : Option Nat
  price : ℚ
  stock_quantity : Int
  description : List Char
  image_url : List Char
  created_at : Nat
deriving Repr, DecidableEq

/-- Row of `customers` (app.py:58–73); `email` carries a UNIQUE constraint. -/
structure Customer where
  customer_id : Nat
  first_name : List Char
  last_name : List Char
  email : List Char
  password_hash : List Char
  phone : List Char
  address : List Char
  city : List Char
  state : List Char
  zip_code : List Char
  country : List Char
deriving Repr, DecidableEq

/-- Row of `orders` (app.py:75–86); `status` defaults to `'pending'`. -/
structure Order where
  order_id : Nat
  customer_id : Nat
  order_date : Nat
  total_amount : ℚ
  status : List Char
  shipping_address : List Char
  payment_method : List Char
deriving Repr, DecidableEq

/-- Row of `order_items` (app.py:88–99). -/
structure OrderItem where
  order_item_id : Nat
  order_id : Nat
  product_id : Nat
  quantity : Int
  unit_price : ℚ
  subtotal : ℚ
deriving Repr, DecidableEq

/-- Row of `cart` (app.py:101–111). -/
structure CartEntry where
  cart_id : Nat
  customer_id : Nat
  product_id : Nat
  quantity : Int
  added_at : Nat
deriving Repr, DecidableEq

/-- The persistent store: the tables created by `init_database` that the
service operations touch (the unused `reviews` table is omitted), the
autoincrement counters, and the clock. -/
structure DB where
  categories : List Category
  products : List Product
  customers : List Customer
  cart : List CartEntry
  orders : List Order
  order_items : List OrderItem
  next_category_id : Nat
  next_product_id : Nat
  next_customer_id : Nat
  next_cart_id : Nat
  next_order_id : Nat
  next_order_item_id : Nat
  now : Nat
deriving Repr, DecidableEq

attribute [ext] DB

/-- The freshly initialised database: empty tables, all autoincrement
counters at 1. -/
def initialDB : DB :=
  { categories := [], products := [], customers := [], cart := [], orders := [],
    order_items := [], next_category_id := 1, next_product_id := 1,
    next_customer_id := 1, next_cart_id := 1, next_order_id := 1,
    next_order_item_id := 1, now := 0 }

/-! ## Credential store (app.py:135–179) -/

/-- The `data` dictionary passed to `register_customer` by the registration
form (app.py:548–553): all keys are present. -/
structure RegisterData where
  first_name : List Char
  last_name : List Char
  email : List Char
  password : List Char
  phone : List Char
  address : List Char
  city : List Char
  state : List Char
  zip_code : List Char
  country : List Char
deriving Repr, DecidableEq

/-- The customer row the INSERT of `register_customer` (app.py:158–167)
writes: the form fields with `password_hash = hash_password(data['password'])`
and the next autoincrement id. -/
def newCustomerRow (data : RegisterData) (db : DB) : Customer :=
  { customer_id := db.next_customer_id, first_name := data.first_name,
    last_name := data.last_name, email := data.email,
    password_hash := hash_password data.password, phone := data.phone,
    address := data.address, city := data.city, state := data.state,
    zip_code := data.zip_code, country := data.country }

/-- Embeds `register_customer` (app.py:154–179): a parameterized INSERT into
`customers` storing `hash_password(data['password'])`.  The UNIQUE constraint
on `email` (app.py:63) makes the insert raise for a duplicate email; the
exception is caught and the function returns `False` with nothing written. -/
def register_customer (data : RegisterData) (db : DB) : Bool × DB :=
  if db.customers.any (fun c => c.email == data.email) then
    (false, db)
  else
    (true, { db with
      customers := db.customers ++ [newCustomerRow data db],
      next_customer_id := db.next_customer_id + 1 })

/-- Embeds `authenticate_user` (app.py:139–151):
`SELECT * FROM customers WHERE email = ? AND password_hash = ?` with
`hash_password(password)`, returning the first matching row (`fetchone`), or
`None`. -/
def authenticate_user (email password : List Char) (db : DB) : Option Customer :=
  db.customers.find? (fun c => c.email == email && c.password_hash == hash_password password)

/-! ## Catalog service (app.py:182–255) -/

/-- Embeds `add_category` (app.py:239–255): INSERT into `categories`; the
UNIQUE constraint on `category_name` (app.py:37) makes a duplicate name raise,
which is caught and reported as `False`. -/
def add_category (name description : List Char) (db : DB) : Bool × DB :=
  if db.categories.any (fun c => c.category_name == name) then
    (false, db)
  else
    (true, { db with
      categories := db.categories ++
        [{ category_id := db.next_category_id, category_name := name,
           description := description }],
      next_category_id := db.next_category_id + 1 })

/-- The `data` dictionary taken by `add_product` (app.py:182–214).  The keys
`name`, `category_id`, `price`, `stock`, `description` are read with
`data[...]` — a missing key raises `KeyError` before any SQL runs — so each is
an `Option`; `image_url` is read with `data.get('image_url', '')`. -/
structure ProductData where
  name : Option (List Char)
  category_id : Option Nat
  price : Option ℚ
  stock : Option Int
  description : Option (List Char)
  image_url : Option (List Char)
deriving Repr, DecidableEq

/-- Embeds `add_product` (app.py:182–214).  `none` is an uncaught `KeyError`
raised while building `values` (before the try block): nothing is written.
When every required key is present the INSERT succeeds (the table has no
constraint the insert could violate) and stock is written exactly as given —
the schema-level `DEFAULT 0` applies only to inserts that omit the column,
which this INSERT never does. -/
def add_product (data : ProductData) (db : DB) : Option (Bool × DB) :=
  match data.name, data.category_id, data.price, data.stock, data.description with
  | some name, some category_id, some price, some stock, some description =>
    some (true, { db with
      products := db.products ++
        [{ product_id := db.next_product_id, product_name := name,
           category_id := some category_id, price := price,
           stock_quantity := stock, description := description,
           image_url := data.image_url.getD [], created_at := db.now }],
      next_product_id := db.next_product_id + 1 })
  | _, _, _, _, _ => none

/-- The admin Add Product form fields (app.py:681–693). -/
structure ProductForm where
  name : List Char
  category_id : Option Nat
  price : ℚ
  stock : Int
  description : List Char
  image_url : List Char
deriving Repr, DecidableEq

/-- Embeds the Add Product form handler (app.py:695–716): it rejects an empty
(after strip) name, a missing category, and a non-positive price before
calling `add_product` with every dictionary key present. -/
def addProductForm (f : ProductForm) (db : DB) : Option (Bool × DB) :=
  if (pyStrip f.name).isEmpty then some (false, db)
  else
    match f.category_id with
    | none => some (false, db)
    | some category_id =>
      if f.price ≤ 0 then some (false, db)
      else
        add_product
          { name := some (pyStrip f.name), category_id := some category_id,
            price := some f.price, stock := some f.stock,
            description := some (pyStrip f.description),
            image_url := some (pyStrip f.image_url) } db

/-- The product row the INSERT of `add_product` writes when called from the
admin form: every key present, the stripped form fields, and the next
autoincrement id. -/
def newProductRow (f : ProductForm) (db : DB) : Product :=
  { product_id := db.next_product_id, product_name := pyStrip f.name,
    category_id := f.category_id, price := f.price, stock_quantity := f.stock,
    description := pyStrip f.description, image_url := pyStrip f.image_url,
    created_at := db.now }

/-- Product row as returned by `get_products` (app.py:216–228): products LEFT
JOINed with their category's name (`none` when the foreign key is NULL or
dangling). -/
structure ProductRow where
  product : Product
  category_name : Option (List Char)
deriving Repr, DecidableEq

/-- Embeds `get_products` (app.py:216–228):
`SELECT p.*, c.category_name FROM products p LEFT JOIN categories c … ORDER BY
p.created_at DESC`. -/
def get_products (db : DB) : List ProductRow :=
  sortLe (fun a b => b.product.created_at ≤ a.product.created_at)
    (db.products.map (fun p =>
      { product := p,
        category_name :=
          (p.category_id.bind (fun cid =>
            db.categories.find? (fun c => c.category_id == cid))).map
            (fun c => c.category_name) }))

/-- The sort choices of the Shop tab select box (app.py:577). -/
inductive SortChoice where
  | byName
  | priceLowHigh
  | priceHighLow
deriving Repr, DecidableEq

/-- Lexicographic code-point order on strings, as pandas sorts object columns. -/
def strLe : List Char → List Char → Bool
  | [], _ => true
  | _ :: _, [] => false
  | a :: as, b :: bs => if a = b then strLe as bs else decide (a < b)

/-- Embeds the Shop tab product pipeline (app.py:580–594): fetch products; if
the search box is non-empty, keep rows whose `product_name` matches
`str.contains(search, case=False)` — a case-insensitive *regular-expression*
search, `regex=True` being the pandas default; if the category choice is not
`"All"`, keep rows with that exact `category_name`; then `sort_values` by the
chosen key. -/
def listProducts (search : List Char) (categoryChoice : List Char)
    (sortChoice : SortChoice) (db : DB) : List ProductRow :=
  let rows := get_products db
  let rows := if search.isEmpty then rows
    else rows.filter (fun r => reSearchCI search r.product.product_name)
  let rows := if categoryChoice == "All".toList then rows
    else rows.filter (fun r => r.category_name == some categoryChoice)
  match sortChoice with
  | .byName => sortLe (fun a b => strLe a.product.product_name b.product.product_name) rows
  | .priceLowHigh => sortLe (fun a b => decide (a.product.price ≤ b.product.price)) rows
  | .priceHighLow => sortLe (fun a b => decide (b.product.price ≤ a.product.price)) rows

/-- The claim's reading of the same pipeline, following the specification's
words: the filter keeps exactly the products whose name contains the filter
text as a case-insensitive *substring*.  Identical to `listProducts` except
that `ciSubstr` replaces the regex search. -/
def listProductsSpec (search : List Char) (categoryChoice : List Char)
    (sortChoice : SortChoice) (db : DB) : List ProductRow :=
  let rows := get_products db
  let rows := if search.isEmpty then rows
    else rows.filter (fun r => ciSubstr search r.product.product_name)
  let rows := if categoryChoice == "All".toList then rows
    else rows.filter (fun r => r.category_name == some categoryChoice)
  match sortChoice with
  | .byName => sortLe (fun a b => strLe a.product.product_name b.product.product_name) rows
  | .priceLowHigh => sortLe (fun a b => decide (a.product.price ≤ b.product.price)) rows
  | .priceHighLow => sortLe (fun a b => decide (b.product.price ≤ a.product.price)) rows

/-! ## Cart service (app.py:258–304) -/

/-- The `WHERE customer_id = ? AND product_id = ?` condition shared by the
SELECT and UPDATE of `add_to_cart` (app.py:263, 269). -/
def cartMatches (customer_id product_id : Nat) (e : CartEntry) : Bool :=
  e.customer_id == customer_id && e.product_id == product_id

/-- The row effect of `UPDATE cart SET quantity = quantity + ? WHERE
customer_id = ? AND product_id = ?` (app.py:269). -/
def bumpQuantity (customer_id product_id : Nat) (quantity : Int) (e : CartEntry) :
    CartEntry :=
  if cartMatches customer_id product_id e then
    { e with quantity := e.quantity + quantity }
  else e

/-- Embeds `add_to_cart` (app.py:258–280): if a row for
`(customer_id, product_id)` exists, `UPDATE cart SET quantity = quantity + ?`
on every matching row; otherwise INSERT a new row.  Always returns `True`. -/
def add_to_cart (customer_id product_id : Nat) (quantity : Int) (db : DB) :
    Bool × DB :=
  if db.cart.any (cartMatches customer_id product_id) then
    (true, { db with
      cart := db.cart.map (bumpQuantity customer_id product_id quantity) })
  else
    (true, { db with
      cart := db.cart ++
        [{ cart_id := db.next_cart_id, customer_id := customer_id,
           product_id := product_id, quantity := quantity, added_at := db.now }],
      next_cart_id := db.next_cart_id + 1 })

/-- Number of cart rows for a `(customer, product)` pair. -/
def cartCount (db : DB) (customer_id product_id : Nat) : Nat :=
  (db.cart.filter (cartMatches customer_id product_id)).length

/-- Total cart quantity recorded for a `(customer, product)` pair. -/
def cartQty (db : DB) (customer_id product_id : Nat) : Int :=
  ((db.cart.filter (cartMatches customer_id product_id)).map (fun e => e.quantity)).sum

/-- The cart invariant of the specification: at most one cart row per
`(customer, product)` pair, stated as pairwise distinctness of the key. -/
def cartInv (db : DB) : Prop :=
  db.cart.Pairwise (fun a b =>
    ¬(a.customer_id = b.customer_id ∧ a.product_id = b.product_id))

instance (db : DB) : Decidable (cartInv db) := List.instDecidablePairwise _

/-- Cart line as returned by `get_cart_items` (app.py:282–294): the cart row
joined with the product's current name, price and image, and
`subtotal = quantity * price` computed from the product's *live* price. -/
structure CartLine where
  cart_id : Nat
  customer_id : Nat
  product_id : Nat
  quantity : Int
  added_at : Nat
  product_name : List Char
  price : ℚ
  image_url : List Char
  subtotal : ℚ
deriving Repr, DecidableEq

/-- Embeds `get_cart_items` (app.py:282–294):
`SELECT c.*, p.product_name, p.price, p.image_url, (c.quantity * p.price) as
subtotal FROM cart c JOIN products p ON c.product_id = p.product_id WHERE
c.customer_id = ?`.  The inner join is modelled by looking up the (unique)
product row for each cart entry. -/
def get_cart_items (customer_id : Nat) (db : DB) : List CartLine :=
  db.cart.filterMap (fun e =>
    if e.customer_id == customer_id then
      (db.products.find? (fun p => p.product_id == e.product_id)).map (fun p =>
        { cart_id := e.cart_id, customer_id := e.customer_id,
          product_id := e.product_id, quantity := e.quantity,
          added_at := e.added_at, product_name := p.product_name,
          price := p.price, image_url := p.image_url,
          subtotal := (e.quantity : ℚ) * p.price })
    else none)

/-- Embeds `clear_cart` (app.py:296–304):
`DELETE FROM cart WHERE customer_id = ?`. -/
def clear_cart (customer_id : Nat) (db : DB) : DB :=
  { db with cart := db.cart.filter (fun e => !(e.customer_id == customer_id)) }

/-! ## Order service (app.py:306–363)

`create_order` runs one INSERT into `orders`, then per cart line one INSERT
into `order_items` and one unguarded stock UPDATE, then `conn.commit()`.
Python's `sqlite3` opens an implicit transaction for these DML statements and
`conn.commit()` (app.py:335) is the only commit; if any statement raises, the
function is left without committing and the uncommitted transaction is rolled
back when the connection is discarded, so the caller-visible database is the
original one.  `runStmts` executes the statement list against the pending
state with an injected failure index `failAt`. -/

/-- `INSERT INTO orders (customer_id, total_amount, shipping_address,
payment_method) VALUES (?, ?, ?, ?)` (app.py:315–319); `order_date` and
`status` take their column defaults. -/
def insertOrder (customer_id : Nat) (total : ℚ) (shipping_address payment_method : List Char)
    (db : DB) : DB :=
  { db with
    orders := db.orders ++
      [{ order_id := db.next_order_id, customer_id := customer_id,
         order_date := db.now, total_amount := total,
         status := "pending".toList, shipping_address := shipping_address,
         payment_method := payment_method }],
    next_order_id := db.next_order_id + 1 }

/-- `INSERT INTO order_items (order_id, product_id, quantity, unit_price,
subtotal) VALUES (?, ?, ?, ?, ?)` with the line's `price` and `subtotal`
(app.py:324–329). -/
def insertOrderItem (order_id : Nat) (item : CartLine) (db : DB) : DB :=
  { db with
    order_items := db.order_items ++
      [{ order_item_id := db.next_order_item_id, order_id := order_id,
         product_id := item.product_id, quantity := item.quantity,
         unit_price := item.price, subtotal := item.subtotal }],
    next_order_item_id := db.next_order_item_id + 1 }

/-- `UPDATE products SET stock_quantity = stock_quantity - ? WHERE
product_id = ?` (app.py:332–333): an unguarded decrement. -/
def decrementStock (item : CartLine) (db : DB) : DB :=
  { db with
    products := db.products.map (fun p =>
      if p.product_id == item.product_id then
        { p with stock_quantity := p.stock_quantity - item.quantity }
      else p) }

/-- The statement sequence of `create_order` (app.py:315–333): the order
INSERT, then per line the item INSERT (under `lastrowid = order_id`) and the
stock UPDATE. -/
def orderStmts (customer_id order_id : Nat) (cart_items : List CartLine)
    (shipping_address payment_method : List Char) (total : ℚ) : List (DB → DB) :=
  insertOrder customer_id total shipping_address payment_method ::
    (cart_items.map (fun item =>
      [insertOrderItem order_id item, decrementStock item])).flatten

/-- Run a statement list against the pending state; the statement with index
`failAt` (if reached) raises instead, aborting the run. -/
def runStmts (failAt : Option Nat) (idx : Nat) (db : DB) :
    List (DB → DB) → Option DB
  | [] => some db
  | stmt :: rest =>
    if failAt == some idx then none else runStmts failAt (idx + 1) (stmt db) rest

/-- Embeds `create_order` (app.py:306–339) together with the sqlite3
transaction semantics described above.  `failAt` injects an exception at the
given statement index; `(none, db)` is the aborted call — no commit, roll
back, caller-visible database unchanged.  On completion `conn.commit()` makes
the pending state visible and `lastrowid` (the order id) is returned. -/
def create_order (failAt : Option Nat) (customer_id : Nat)
    (cart_items : List CartLine) (shipping_address payment_method : List Char)
    (db : DB) : Option Nat × DB :=
  let total := (cart_items.map (fun i => i.subtotal)).sum
  let order_id := db.next_order_id
  match runStmts failAt 0 db
      (orderStmts customer_id order_id cart_items shipping_address payment_method total) with
  | some pending => (some order_id, pending)
  | none => (none, db)

/-- The order row the first INSERT of `create_order` writes: status
`'pending'`, `order_date` from the clock, and `total_amount` the sum of the
supplied lines' subtotals. -/
def newOrderRow (customer_id : Nat) (cart_items : List CartLine)
    (shipping_address payment_method : List Char) (db : DB) : Order :=
  { order_id := db.next_order_id, customer_id := customer_id,
    order_date := db.now,
    total_amount := (cart_items.map (fun i => i.subtotal)).sum,
    status := "pending".toList, shipping_address := shipping_address,
    payment_method := payment_method }

/-- The order-item rows the per-line INSERTs of `create_order` write: one row
per cart line, consecutive ids from `next_item_id`, `unit_price` and
`subtotal` frozen from the line. -/
def newItemRows (order_id next_item_id : Nat) : List CartLine → List OrderItem
  | [] => []
  | item :: rest =>
    { order_item_id := next_item_id, order_id := order_id,
      product_id := item.product_id, quantity := item.quantity,
      unit_price := item.price, subtotal := item.subtotal }
      :: newItemRows order_id (next_item_id + 1) rest

/-- Net quantity the cart lines order of product `product_id`. -/
def linesQty (cart_items : List CartLine) (product_id : Nat) : Int :=
  ((cart_items.filter (fun i => i.product_id == product_id)).map
    (fun i => i.quantity)).sum

/-- The combined committed effect of a successful `create_order` call: the new
order row, one order-item row per line, and each product's stock decremented
by the total quantity the lines order of it. -/
def createOrderEffect (customer_id : Nat) (items : List CartLine)
    (shipping_address payment_method : List Char) (db : DB) : DB :=
  { db with
    orders := db.orders ++
      [newOrderRow customer_id items shipping_address payment_method db],
    next_order_id := db.next_order_id + 1,
    order_items := db.order_items ++
      newItemRows db.next_order_id db.next_order_item_id items,
    next_order_item_id := db.next_order_item_id + items.length,
    products := db.products.map (fun p =>
      { p with stock_quantity := p.stock_quantity - linesQty items p.product_id }) }

/-- The order-item rows stored for order `order_id`. -/
def itemsOfOrder (order_id : Nat) (db : DB) : List OrderItem :=
  db.order_items.filter (fun it => it.order_id == order_id)

/-- Every stored order item references an order id below the autoincrement
counter (true of every state the application reaches). -/
def ordersWellFormed (db : DB) : Prop :=
  ∀ it ∈ db.order_items, it.order_id < db.next_order_id

instance (db : DB) : Decidable (ordersWellFormed db) := List.decidableBAll _ _

/-- The checkout call of the Cart tab (app.py:643–645): `create_order` applied
to the current `get_cart_items` lines. -/
def checkoutResult (customer_id : Nat) (shipping_address payment_method : List Char)
    (db : DB) : Option Nat × DB :=
  create_order none customer_id (get_cart_items customer_id db)
    shipping_address payment_method db

/-- Order row as returned by `get_orders` (app.py:341–363): the order joined
with the customer's identity fields. -/
structure OrderRow where
  order : Order
  first_name : List Char
  last_name : List Char
  email : List Char
deriving Repr, DecidableEq

/-- `FROM orders o JOIN customers c ON o.customer_id = c.customer_id`
(app.py:345–359): inner join, modelled by the (unique) customer lookup. -/
def joinOrdersCustomers (db : DB) : List OrderRow :=
  db.orders.filterMap (fun o =>
    (db.customers.find? (fun c => c.customer_id == o.customer_id)).map (fun c =>
      { order := o, first_name := c.first_name, last_name := c.last_name,
        email := c.email }))

/-- Python truthiness of the `customer_id=None` parameter: `if customer_id:`
is false for `None` and for `0`. -/
def pyTruthy : Option Nat → Bool
  | none => false
  | some n => !(n == 0)

/-- Embeds `get_orders` (app.py:341–363): when `customer_id` is truthy the
join is restricted to that customer, otherwise it covers all customers; both
branches `ORDER BY o.order_date DESC`. -/
def get_orders (customer_id : Option Nat) (db : DB) : List OrderRow :=
  if pyTruthy customer_id then
    sortLe (fun a b => b.order.order_date ≤ a.order.order_date)
      ((joinOrdersCustomers db).filter
        (fun r => r.order.customer_id == customer_id.getD 0))
  else
    sortLe (fun a b => b.order.order_date ≤ a.order.order_date)
      (joinOrdersCustomers db)

/-! ## The service operations as a transition system

`Op` collects the state-changing operations the application can perform, as
the UI drives them (checkout passes `get_cart_items` to `create_order` and
clears the cart on success, app.py:643–649); `runOps` is the set of states
reachable from the fresh database. -/

/-- One state-changing service call, as dispatched by the UI. -/
inductive Op where
  | register (d : RegisterData)
  | addCategory (name description : List Char)
  | addProduct (f : ProductForm)
  | addToCart (customer_id product_id : Nat) (quantity : Int)
  | checkout (customer_id : Nat) (shipping_address payment_method : List Char)
  | clearCart (customer_id : Nat)
  | tick
deriving Repr, DecidableEq

/-- Apply one operation to the store (the state part of each call). -/
def applyOp (db : DB) : Op → DB
  | .register d => (register_customer d db).2
  | .addCategory name description => (add_category name description db).2
  | .addProduct f =>
    match addProductForm f db with
    | some (_, db2) => db2
    | none => db
  | .addToCart c p q => (add_to_cart c p q db).2
  | .checkout c sa pm =>
    match create_order none c (get_cart_items c db) sa pm db with
    | (some _, db2) => clear_cart c db2
    | (none, db2) => db2
  | .clearCart c => clear_cart c db
  | .tick => { db with now := db.now + 1 }

/-- The state reached from the fresh database by a sequence of operations. -/
def runOps (ops : List Op) : DB := ops.foldl applyOp initialDB


/-! ## Concrete states and inputs used by the witnesses and counterexamples -/

/-- Concrete data for the register-based witnesses. -/
def aliceData : RegisterData :=
  { first_name := "Alice".toList, last_name := "Price".toList,
    email := "alice@example.com".toList, password := "wonder".toList,
    phone := "555".toList, address := "1 Main St".toList, city := "Springfield".toList,
    state := "IL".toList, zip_code := "62701".toList, country := "US".toList }

/-- Alice's email registered a second time, under a different name/password. -/
def aliceDup : RegisterData :=
  { aliceData with first_name := "Alicia".toList, password := "stone".toList }

/-- The store after Alice registers. -/
def dbAfterAlice : DB := (register_customer aliceData initialDB).2

/-- The cart state after adding product 5 for customer 1, quantity 2, twice. -/
def cartTwiceDB : DB := (add_to_cart 1 5 2 (add_to_cart 1 5 2 initialDB).2).2

/-- Two customers, each with one order (customer 2's order is the later one),
for demonstrating that `get_orders(0)` returns every customer's orders. -/
def twoOrdersDB : DB :=
  { initialDB with
    customers :=
      [{ customer_id := 1, first_name := "Ann".toList, last_name := "A".toList,
         email := "ann@shop.test".toList, password_hash := "h1".toList,
         phone := [], address := [], city := [], state := [], zip_code := [],
         country := [] },
       { customer_id := 2, first_name := "Bob".toList, last_name := "B".toList,
         email := "bob@shop.test".toList, password_hash := "h2".toList,
         phone := [], address := [], city := [], state := [], zip_code := [],
         country := [] }],
    next_customer_id := 3,
    orders :=
      [{ order_id := 1, customer_id := 1, order_date := 5, total_amount := 10,
         status := "pending".toList, shipping_address := [], payment_method := [] },
       { order_id := 2, customer_id := 2, order_date := 9, total_amount := 20,
         status := "pending".toList, shipping_address := [], payment_method := [] }],
    next_order_id := 3, now := 10 }

/-- A store whose only product is named "widget", for the C6 counterexample:
the search text "." is a regex that matches every one-character position of
"widget", yet "." is not a substring of "widget". -/
def widgetOnlyDB : DB :=
  { initialDB with
    products :=
      [{ product_id := 1, product_name := "widget".toList, category_id := none,
         price := 3, stock_quantity := 7, description := [], image_url := [],
         created_at := 0 }],
    next_product_id := 2 }

/-- A store whose only product is named "widget-9000", for the C6 witness. -/
def widget9000DB : DB :=
  { initialDB with
    products :=
      [{ product_id := 1, product_name := "widget-9000".toList, category_id := none,
         price := 3, stock_quantity := 7, description := [], image_url := [],
         created_at := 0 }],
    next_product_id := 2 }

/-- An `add_product` input dictionary without the `stock` key, for the C8
counterexample. -/
def productDataNoStock : ProductData :=
  { name := some "Widget".toList, category_id := some 1, price := some 5,
    stock := none, description := some [], image_url := some [] }

/-- A fully valid admin form input, for the C8 witness. -/
def goodProductForm : ProductForm :=
  { name := "Gadget".toList, category_id := some 1, price := 9,
    stock := 4, description := "nice".toList, image_url := [] }

/-- The store after submitting `goodProductForm` on the fresh database. -/
def dbAfterGadget : DB :=
  ((addProductForm goodProductForm initialDB).getD (false, initialDB)).2

/-- An operation sequence the application itself can perform (every add-to-cart
stays within the UI's stock bound of the moment): stock a product with one
unit, put it in the cart twice, and check out.  The checkout decrements the
stock by the accumulated cart quantity 2, leaving it at -1. -/
def c2Ops : List Op :=
  [Op.addCategory "tools".toList [],
   Op.addProduct { name := "widget".toList, category_id := some 1, price := 5,
                   stock := 1, description := [], image_url := [] },
   Op.register aliceData,
   Op.addToCart 1 1 1,
   Op.addToCart 1 1 1,
   Op.checkout 1 "1 Main St".toList "Credit Card".toList]

/-- A store holding one product with five units in stock. -/
def stockedDB : DB :=
  { initialDB with
    products :=
      [{ product_id := 1, product_name := "w".toList, category_id := none,
         price := 2, stock_quantity := 5, description := [], image_url := [],
         created_at := 0 }],
    next_product_id := 2 }

/-- A cart line ordering three of `stockedDB`'s five units. -/
def c2Line : CartLine :=
  { cart_id := 1, customer_id := 1, product_id := 1, quantity := 3,
    added_at := 0, product_name := "w".toList, price := 2, image_url := [],
    subtotal := 6 }

/-- `stockedDB` together with a cart row for three units, for the C4 witness. -/
def c4DB : DB :=
  { stockedDB with
    cart := [{ cart_id := 1, customer_id := 1, product_id := 1, quantity := 3,
               added_at := 0 }],
    next_cart_id := 2 }

/-! ## General lemmas about the embedded primitives -/

/-- For a pattern whose characters are fixed by `Char.toUpper` (such as the
all-caps keyword `SELECT`), prefix matching against an uppercased string is
exactly case-insensitive prefix matching against the original string. -/
theorem isPrefixOf_pyUpper_eq_ciStartsWith (p : List Char)
    (hp : ∀ c ∈ p, c.toUpper = c) (s : List Char) :
    List.isPrefixOf p (pyUpper s) = ciStartsWith p s := by
  induction p generalizing s with
  | nil => cases s <;> simp [List.isPrefixOf, ciStartsWith, pyUpper]
  | cons a as ih =>
    cases s with
    | nil => simp [List.isPrefixOf, ciStartsWith, pyUpper]
    | cons b bs =>
      have ha : a.toUpper = a := hp a (by simp)
      have has : ∀ c ∈ as, c.toUpper = c := fun c hc => hp c (by simp [hc])
      simp only [pyUpper, List.map_cons, List.isPrefixOf, ciStartsWith, ciCharEq, ha]
      rw [show List.map Char.toUpper bs = pyUpper bs from rfl, ih has]
      by_cases h : a = b.toUpper <;> simp [h]

theorem reMatchHere_eq_ciSubstrHere (pat : List Char)
    (hp : ∀ c ∈ pat, isRegexMeta c = false) (s : List Char) :
    reMatchHere pat s = ciSubstrHere pat s := by
  induction pat generalizing s with
  | nil => cases s <;> rfl
  | cons p ps ih =>
    cases s with
    | nil => rfl
    | cons c cs =>
      have hdot : ¬ p = '.' := by
        intro h
        have := hp p (by simp)
        rw [h] at this
        simp [isRegexMeta] at this
      have hps : ∀ c ∈ ps, isRegexMeta c = false := fun c hc => hp c (by simp [hc])
      simp [reMatchHere, ciSubstrHere, hdot, ih hps]

/-- For a metacharacter-free pattern, the case-insensitive regex search coincides
with case-insensitive substring containment. -/
theorem reSearchCI_eq_ciSubstr (pat : List Char)
    (hp : ∀ c ∈ pat, isRegexMeta c = false) (s : List Char) :
    reSearchCI pat s = ciSubstr pat s := by
  induction s with
  | nil => simp [reSearchCI, ciSubstr, reMatchHere_eq_ciSubstrHere pat hp]
  | cons c cs ih =>
    simp [reSearchCI, ciSubstr, reMatchHere_eq_ciSubstrHere pat hp, ih]

theorem mem_insertLe (le : α → α → Bool) (x b : α) (l : List α) :
    b ∈ insertLe le x l ↔ b = x ∨ b ∈ l := by
  induction l with
  | nil => simp [insertLe]
  | cons y ys ih =>
    by_cases h : le x y = true
    · rw [insertLe, if_pos h]
      simp [or_comm, or_left_comm]
    · rw [insertLe, if_neg h]
      simp [ih, or_comm, or_left_comm]

theorem pairwise_insertLe (le : α → α → Bool)
    (htrans : ∀ a b c, le a b = true → le b c = true → le a c = true)
    (htot : ∀ a b, le a b = true ∨ le b a = true) (x : α) (l : List α)
    (hl : l.Pairwise (fun a b => le a b = true)) :
    (insertLe le x l).Pairwise (fun a b => le a b = true) := by
  induction l with
  | nil => simp [insertLe]
  | cons y ys ih =>
    rcases List.pairwise_cons.mp hl with ⟨hy, hys⟩
    by_cases h : le x y = true
    · rw [insertLe, if_pos h]
      refine List.pairwise_cons.mpr ⟨?_, hl⟩
      intro b hb
      rcases List.mem_cons.mp hb with rfl | hb
      · exact h
      · exact htrans x y b h (hy b hb)
    · rw [insertLe, if_neg h]
      refine List.pairwise_cons.mpr ⟨?_, ih hys⟩
      intro b hb
      rcases (mem_insertLe le x b ys).mp hb with hbx | hb
      · rw [hbx]
        rcases htot x y with hc | hc
        · exact absurd hc h
        · exact hc
      · exact hy b hb

/-- Insertion sort produces a list that is pairwise ordered by a transitive,
total boolean relation. -/
theorem pairwise_sortLe (le : α → α → Bool)
    (htrans : ∀ a b c, le a b = true → le b c = true → le a c = true)
    (htot : ∀ a b, le a b = true ∨ le b a = true) (l : List α) :
    (sortLe le l).Pairwise (fun a b => le a b = true) := by
  induction l with
  | nil => simp [sortLe]
  | cons x xs ih => exact pairwise_insertLe le htrans htot x (sortLe le xs) ih

/-! ## Cart upsert (claim C3) -/

theorem cartMatches_iff (c p : Nat) (e : CartEntry) :
    cartMatches c p e = true ↔ e.customer_id = c ∧ e.product_id = p := by
  simp [cartMatches]

theorem cartMatches_bumpQuantity (c p : Nat) (q : Int) (e : CartEntry) :
    cartMatches c p (bumpQuantity c p q e) = cartMatches c p e := by
  rw [bumpQuantity]
  split <;> simp_all [cartMatches]

/-- Under the pairwise-distinct invariant, a `(customer, product)` pair with at
least one cart row has exactly one. -/
theorem filter_cartMatches_of_inv (c p : Nat) (l : List CartEntry)
    (hinv : l.Pairwise (fun a b =>
      ¬(a.customer_id = b.customer_id ∧ a.product_id = b.product_id)))
    (hany : l.any (cartMatches c p) = true) :
    ∃ e, l.filter (cartMatches c p) = [e] ∧ cartMatches c p e = true := by
  induction l with
  | nil => simp at hany
  | cons x xs ih =>
    rcases List.pairwise_cons.mp hinv with ⟨hx, hxs⟩
    by_cases hm : cartMatches c p x = true
    · refine ⟨x, ?_, hm⟩
      rw [List.filter_cons_of_pos hm]
      have hnil : xs.filter (cartMatches c p) = [] := by
        rw [List.filter_eq_nil_iff]
        intro b hb hbm
        rcases (cartMatches_iff c p x).mp hm with ⟨hx1, hx2⟩
        rcases (cartMatches_iff c p b).mp hbm with ⟨hb1, hb2⟩
        exact hx b hb ⟨hx1.trans hb1.symm, hx2.trans hb2.symm⟩
      rw [hnil]
    · rw [List.filter_cons_of_neg hm]
      refine ih hxs ?_
      rcases List.any_eq_true.mp hany with ⟨a, ha, hpa⟩
      rcases List.mem_cons.mp ha with rfl | ha2
      · exact absurd hpa hm
      · exact List.any_eq_true.mpr ⟨a, ha2, hpa⟩

/-- C3: `add_to_cart` keeps at most one cart row per `(customer, product)`
pair and accumulates quantity: from a state satisfying the invariant, the pair
ends with exactly one row whose quantity grew by `quantity` (a fresh row keeps
`cartQty db = 0` of history). -/
theorem c3_cart_upsert (customer_id product_id : Nat) (quantity : Int) (db : DB)
    (hinv : cartInv db) :
    cartInv (add_to_cart customer_id product_id quantity db).2 ∧
    cartCount (add_to_cart customer_id product_id quantity db).2 customer_id product_id = 1 ∧
    cartQty (add_to_cart customer_id product_id quantity db).2 customer_id product_id =
      cartQty db customer_id product_id + quantity := by
  by_cases hany : db.cart.any (cartMatches customer_id product_id) = true
  · rw [add_to_cart, if_pos hany]
    rcases filter_cartMatches_of_inv customer_id product_id db.cart hinv hany with
      ⟨e, hfilter, hme⟩
    have hfm : List.filter (cartMatches customer_id product_id)
        (List.map (bumpQuantity customer_id product_id quantity) db.cart) =
        List.map (bumpQuantity customer_id product_id quantity)
          (List.filter (cartMatches customer_id product_id) db.cart) := by
      rw [List.filter_map]
      congr 1
      apply List.filter_congr
      intro a _
      exact (cartMatches_bumpQuantity customer_id product_id quantity a)
    refine ⟨?_, ?_, ?_⟩
    · rw [cartInv]
      refine List.pairwise_map.mpr ?_
      refine hinv.imp ?_
      intro a b hab
      simp only [bumpQuantity]
      split <;> split <;> simpa using hab
    · rw [cartCount, hfm, hfilter]
      rfl
    · rw [cartQty, cartQty, hfm, hfilter]
      simp [bumpQuantity, hme]
  · rw [add_to_cart, if_neg hany]
    have hall : ∀ e ∈ db.cart, ¬ cartMatches customer_id product_id e = true :=
      List.any_eq_false.mp (Bool.not_eq_true _ ▸ eq_false_of_ne_true hany)
    have hnil : db.cart.filter (cartMatches customer_id product_id) = [] :=
      List.filter_eq_nil_iff.mpr hall
    have hnew : cartMatches customer_id product_id
        { cart_id := db.next_cart_id, customer_id := customer_id,
          product_id := product_id, quantity := quantity, added_at := db.now } = true := by
      simp [cartMatches]
    refine ⟨?_, ?_, ?_⟩
    · rw [cartInv]
      refine List.pairwise_append.mpr ⟨hinv, List.pairwise_singleton _ _, ?_⟩
      intro a ha b hb hcontra
      rcases List.mem_singleton.mp hb with rfl
      exact hall a ha ((cartMatches_iff _ _ _).mpr ⟨hcontra.1, hcontra.2⟩)
    · rw [cartCount, List.filter_append, hnil, List.filter_cons_of_pos hnew]
      rfl
    · rw [cartQty, cartQty, List.filter_append, hnil, List.filter_cons_of_pos hnew]
      simp

theorem c3_cart_upsert_witness :
    cartInv cartTwiceDB ∧ cartCount cartTwiceDB 1 5 = 1 ∧ cartQty cartTwiceDB 1 5 = 4 := by
  have h := c3_cart_upsert 1 5 2 (add_to_cart 1 5 2 initialDB).2 (by decide)
  exact ⟨h.1, h.2.1, by decide⟩

/-! ## Ad-hoc query gateway (claim C5) -/

/-- C5: the ad-hoc query gateway accepts a caller-supplied query string if and
only if, after trimming surrounding whitespace, the string case-insensitively
begins with the keyword SELECT; otherwise it rejects the query and executes
nothing (`none`).  In particular `"  select * from products"` is accepted and
`"DROP TABLE products"` is rejected. -/
theorem c5_query_gateway :
    (∀ q : List Char,
      executeCustomQuery q =
        if ciStartsWith "SELECT".toList (pyStrip q) then some q else none) ∧
    executeCustomQuery "  select * from products".toList =
      some ("  select * from products".toList) ∧
    executeCustomQuery "DROP TABLE products".toList = none := by
  refine ⟨?_, by decide, by decide⟩
  intro q
  rw [executeCustomQuery,
    isPrefixOf_pyUpper_eq_ciStartsWith "SELECT".toList (by decide) (pyStrip q)]

/-! ## Registration and authentication (claims C7 and C9) -/

/-- `register_customer` succeeds exactly when no stored customer already has
the email, in which case it appends precisely the new customer row. -/
theorem register_success_iff (data : RegisterData) (db db2 : DB) :
    register_customer data db = (true, db2) ↔
      db.customers.any (fun c => c.email == data.email) = false ∧
      db2 = { db with
              customers := db.customers ++ [newCustomerRow data db],
              next_customer_id := db.next_customer_id + 1 } := by
  rw [register_customer]
  by_cases h : db.customers.any (fun c => c.email == data.email) = true
  · rw [if_pos h]
    simp [h, Prod.ext_iff]
  · rw [if_neg h]
    simp only [Bool.not_eq_true] at h
    simp [h, Prod.ext_iff, eq_comm]

/-- C7: registering a second customer with an already-registered email fails,
writes no new customer row (the state is unchanged), and the record created by
the first call is still present. -/
theorem c7_duplicate_email (d1 d2 : RegisterData) (db db2 : DB)
    (h1 : register_customer d1 db = (true, db2)) (h2 : d2.email = d1.email) :
    register_customer d2 db2 = (false, db2) ∧ newCustomerRow d1 db ∈ db2.customers := by
  rcases (register_success_iff d1 db db2).mp h1 with ⟨hany, rfl⟩
  have hdup : (db.customers ++ [newCustomerRow d1 db]).any
      (fun c => c.email == d2.email) = true :=
    List.any_eq_true.mpr ⟨newCustomerRow d1 db, by simp, by simp [newCustomerRow, h2]⟩
  constructor
  · rw [register_customer]
    exact if_pos hdup
  · simp

set_option maxRecDepth 8000 in
theorem c7_duplicate_email_witness :
    register_customer aliceDup dbAfterAlice = (false, dbAfterAlice) :=
  (c7_duplicate_email aliceData aliceDup initialDB dbAfterAlice (by decide) (by decide)).1

/-- C9: after a successful registration, authenticating with the same email
and password returns exactly the stored customer record — both operations
apply the same `hash_password` (the SHA-256 hex digest) and `authenticate_user`
matches on the exact `(email, password_hash)` pair. -/
theorem c9_register_authenticate (d : RegisterData) (db db2 : DB)
    (h : register_customer d db = (true, db2)) :
    authenticate_user d.email d.password db2 = some (newCustomerRow d db) := by
  rcases (register_success_iff d db db2).mp h with ⟨hany, rfl⟩
  rw [authenticate_user]
  show List.find? _ (db.customers ++ [newCustomerRow d db]) = _
  rw [List.find?_append]
  have hnone : db.customers.find?
      (fun c => c.email == d.email && c.password_hash == hash_password d.password) = none := by
    rw [List.find?_eq_none]
    intro c hc
    have hne := List.any_eq_false.mp hany c hc
    simp only [Bool.and_eq_true, not_and]
    intro hmail
    exact absurd hmail hne
  rw [hnone]
  simp [newCustomerRow]

set_option maxRecDepth 8000 in
theorem c9_register_authenticate_witness :
    authenticate_user aliceData.email aliceData.password dbAfterAlice =
      some (newCustomerRow aliceData initialDB) :=
  c9_register_authenticate aliceData initialDB dbAfterAlice (by decide)

/-! ## `get_orders` truthiness (claim C10) -/

/-- C10: `get_orders` restricts to one customer only when the identifier is
truthy.  For `customer_id = 0` and for the `None` default alike it returns the
orders of all customers (the full orders–customers join), ordered by order
date descending; on the concrete two-customer store it returns both orders,
newest first, rather than the (empty) set of orders of customer 0. -/
theorem c10_get_orders_truthiness :
    (∀ db : DB, get_orders (some 0) db = get_orders none db) ∧
    (∀ db : DB, get_orders none db =
      sortLe (fun a b => b.order.order_date ≤ a.order.order_date)
        (joinOrdersCustomers db)) ∧
    (∀ db : DB, (get_orders (some 0) db).Pairwise
      (fun a b => b.order.order_date ≤ a.order.order_date)) ∧
    get_orders (some 0) twoOrdersDB =
      [{ order := { order_id := 2, customer_id := 2, order_date := 9,
                    total_amount := 20, status := "pending".toList,
                    shipping_address := [], payment_method := [] },
         first_name := "Bob".toList, last_name := "B".toList,
         email := "bob@shop.test".toList },
       { order := { order_id := 1, customer_id := 1, order_date := 5,
                    total_amount := 10, status := "pending".toList,
                    shipping_address := [], payment_method := [] },
         first_name := "Ann".toList, last_name := "A".toList,
         email := "ann@shop.test".toList }] := by
  refine ⟨fun db => rfl, fun db => rfl, ?_, by decide⟩
  intro db
  have h := pairwise_sortLe
    (fun (a b : OrderRow) => decide (b.order.order_date ≤ a.order.order_date))
    (fun a b c hab hbc => by
      simp only [decide_eq_true_eq] at *
      exact le_trans hbc hab)
    (fun a b => by
      simp only [decide_eq_true_eq]
      exact Nat.le_total b.order.order_date a.order.order_date)
    (joinOrdersCustomers db)
  exact h.imp (fun hab => of_decide_eq_true hab)

/-! ## Product search (claim C6) -/

/-- C6 counterexample: the claim "list_products returns exactly the products
whose name contains the filter text as a case-insensitive substring" fails at
the concrete input filter = "." on a store containing a product named
"widget": pandas `str.contains` interprets the filter as a regular expression
(`regex=True` default), so "." matches "widget" although it is not one of its
substrings. -/
theorem c6_regex_vs_substring_counterexample :
    listProducts ".".toList "All".toList SortChoice.byName widgetOnlyDB ≠
      listProductsSpec ".".toList "All".toList SortChoice.byName widgetOnlyDB := by
  decide

/-- C6 (amended): for filter texts containing no regular-expression
metacharacter, the Shop-tab pipeline returns exactly the products whose name
contains the filter text as a case-insensitive substring (then category-filtered
and sorted); for other filter texts the filter is interpreted as a regex. -/
theorem c6_list_products_amended (search categoryChoice : List Char)
    (sortChoice : SortChoice) (db : DB)
    (hs : ∀ c ∈ search, isRegexMeta c = false) :
    listProducts search categoryChoice sortChoice db =
      listProductsSpec search categoryChoice sortChoice db := by
  rw [listProducts.eq_def, listProductsSpec.eq_def]
  simp only [reSearchCI_eq_ciSubstr search hs]

theorem c6_list_products_amended_witness :
    listProducts "WIDGET".toList "All".toList SortChoice.byName widget9000DB =
      listProductsSpec "WIDGET".toList "All".toList SortChoice.byName widget9000DB ∧
    listProducts "WIDGET".toList "All".toList SortChoice.byName widget9000DB =
      [{ product :=
          { product_id := 1, product_name := "widget-9000".toList,
            category_id := none, price := 3, stock_quantity := 7,
            description := [], image_url := [], created_at := 0 },
         category_name := none }] :=
  ⟨c6_list_products_amended "WIDGET".toList "All".toList SortChoice.byName
      widget9000DB (by decide),
   by decide⟩

/-! ## `add_product` (claim C8) -/

/-- C8 counterexample: when the `stock` key is absent from the input
dictionary, `add_product` does not create a product with `stock_quantity = 0`;
it raises `KeyError` while building `values` (before any SQL runs), modelled
as `none` — no product row is written at all. -/
theorem c8_missing_stock_counterexample :
    add_product productDataNoStock initialDB = none := by
  decide

/-- C8 (amended): the admin add-product flow succeeds exactly when the name is
non-empty after trimming, a category is selected, and the price is positive;
on success it appends exactly one product row carrying the given stock.
`add_product` itself requires the `stock` key: the schema default of zero
applies only to inserts that omit the column, which `add_product` never does
(a missing `stock` key raises instead — see the counterexample). -/
theorem c8_add_product_amended (f : ProductForm) (db : DB) :
    ((∃ db2, addProductForm f db = some (true, db2)) ↔
      ((pyStrip f.name).isEmpty = false ∧ f.category_id.isSome = true ∧ 0 < f.price)) ∧
    (∀ db2, addProductForm f db = some (true, db2) →
      db2 = { db with
              products := db.products ++ [newProductRow f db],
              next_product_id := db.next_product_id + 1 }) := by
  rw [addProductForm]
  by_cases hname : (pyStrip f.name).isEmpty = true
  · simp [hname]
  · rcases hcat : f.category_id with _ | cid
    · simp [hname, hcat]
    · by_cases hprice : f.price ≤ 0
      · simp [hname, hprice]
      · have hpos : 0 < f.price := lt_of_not_ge hprice
        simp only [hname, hcat, hprice, Bool.not_eq_true, if_neg, if_false]
        rw [add_product]
        simp only [Bool.not_eq_true] at hname
        simp [hname, hpos, newProductRow, hcat, Option.isSome]

theorem c8_add_product_amended_witness :
    dbAfterGadget = { initialDB with
                      products := initialDB.products ++ [newProductRow goodProductForm initialDB],
                      next_product_id := initialDB.next_product_id + 1 } :=
  (c8_add_product_amended goodProductForm initialDB).2 dbAfterGadget (by decide)

/-! ## The transaction semantics of `create_order` (claims C1, C2, C4) -/

/-- A statement run either aborts (the injected failure was reached) or ends
with the pending state equal to the sequential application of every
statement. -/
theorem runStmts_cases (failAt : Option Nat) (stmts : List (DB → DB)) :
    ∀ (idx : Nat) (db : DB),
      runStmts failAt idx db stmts = none ∨
      runStmts failAt idx db stmts =
        some (stmts.foldl (fun d stmt => stmt d) db) := by
  induction stmts with
  | nil => intro idx db; right; rfl
  | cons s rest ih =>
    intro idx db
    rw [runStmts]
    by_cases h : (failAt == some idx) = true
    · rw [if_pos h]; left; rfl
    · rw [if_neg h]
      simpa using ih (idx + 1) (s db)

theorem runStmts_none (stmts : List (DB → DB)) :
    ∀ (idx : Nat) (db : DB),
      runStmts none idx db stmts =
        some (stmts.foldl (fun d stmt => stmt d) db) := by
  induction stmts with
  | nil => intro idx db; rfl
  | cons s rest ih =>
    intro idx db
    rw [runStmts]
    simpa using ih (idx + 1) (s db)

theorem linesQty_cons (item : CartLine) (rest : List CartLine) (pid : Nat) :
    linesQty (item :: rest) pid =
      (if item.product_id == pid then item.quantity else 0) + linesQty rest pid := by
  by_cases h : (item.product_id == pid) = true <;>
    simp [linesQty, List.filter_cons, h]

/-- The per-line loop of `create_order` (item INSERT then stock UPDATE, per
line) appends exactly the new item rows and decrements each product's stock by
the lines' net quantity for it. -/
theorem itemsLoop_spec (order_id : Nat) (items : List CartLine) :
    ∀ db : DB,
      ((items.map (fun item =>
          [insertOrderItem order_id item, decrementStock item])).flatten).foldl
        (fun d stmt => stmt d) db =
      { db with
        order_items := db.order_items ++
          newItemRows order_id db.next_order_item_id items,
        next_order_item_id := db.next_order_item_id + items.length,
        products := db.products.map (fun p =>
          { p with stock_quantity := p.stock_quantity - linesQty items p.product_id }) } := by
  induction items with
  | nil =>
    intro db
    show db = _
    have hprod : db.products.map (fun p =>
        { p with stock_quantity := p.stock_quantity - linesQty [] p.product_id }) =
        db.products := by
      refine (List.map_congr_left ?_).trans (List.map_id _)
      intro p _
      show ({ p with stock_quantity := p.stock_quantity - linesQty [] p.product_id } : Product) = p
      have hz : linesQty [] p.product_id = 0 := rfl
      rw [hz, Int.sub_zero]
    rw [hprod]
    simp [newItemRows]
  | cons item rest ih =>
    intro db
    rw [List.map_cons, List.flatten_cons, List.foldl_append]
    have hstep : [insertOrderItem order_id item, decrementStock item].foldl
        (fun d stmt => stmt d) db =
        decrementStock item (insertOrderItem order_id item db) := rfl
    rw [hstep, ih]
    apply DB.ext
    · rfl
    · show (db.products.map _).map _ = db.products.map _
      rw [List.map_map]
      refine List.map_congr_left ?_
      intro p _
      show (fun p => ({ p with stock_quantity :=
          p.stock_quantity - linesQty rest p.product_id } : Product))
          (if p.product_id == item.product_id then
            { p with stock_quantity := p.stock_quantity - item.quantity }
          else p) = _
      by_cases h : (p.product_id == item.product_id) = true
      · have hsym : (item.product_id == p.product_id) = true := by
          simp only [beq_iff_eq] at h ⊢
          exact h.symm
        simp only [if_pos h, linesQty_cons, if_pos hsym]
        congr 1
        omega
      · have hsym : ¬(item.product_id == p.product_id) = true := by
          simp only [beq_iff_eq] at h ⊢
          exact fun he => h he.symm
        simp only [if_neg h, linesQty_cons, if_neg hsym]
        congr 1
        omega
    · rfl
    · rfl
    · rfl
    · show (db.order_items ++ _) ++ _ = db.order_items ++ _
      rw [newItemRows, List.append_assoc]
      rfl
    · rfl
    · rfl
    · rfl
    · rfl
    · rfl
    · show db.next_order_item_id + 1 + rest.length = db.next_order_item_id + (item :: rest).length
      rw [List.length_cons]
      omega
    · rfl

/-- `create_order` either aborts with the caller-visible database unchanged,
or returns the new order id together with the full committed effect. -/
theorem create_order_spec (failAt : Option Nat) (customer_id : Nat)
    (items : List CartLine) (sa pm : List Char) (db : DB) :
    create_order failAt customer_id items sa pm db = (none, db) ∨
    create_order failAt customer_id items sa pm db =
      (some db.next_order_id, createOrderEffect customer_id items sa pm db) := by
  rcases runStmts_cases failAt
      (orderStmts customer_id db.next_order_id items sa pm
        ((items.map (fun i => i.subtotal)).sum)) 0 db with h | h
  · left
    rw [create_order.eq_def]
    simp only [h]
  · right
    rw [create_order.eq_def]
    simp only [h]
    rw [orderStmts, List.foldl_cons, itemsLoop_spec]
    rfl

/-- Without an injected failure, `create_order` always succeeds with the full
committed effect. -/
theorem create_order_none_eq (customer_id : Nat) (items : List CartLine)
    (sa pm : List Char) (db : DB) :
    create_order none customer_id items sa pm db =
      (some db.next_order_id, createOrderEffect customer_id items sa pm db) := by
  rw [create_order.eq_def]
  simp only [runStmts_none]
  rw [orderStmts, List.foldl_cons, itemsLoop_spec]
  rfl

/-- C1: `create_order` (place_order) is atomic.  Whatever statement (if any)
raises mid-way (`failAt` ranges over every possibility), the call either fails
with the caller-visible database exactly as before — no order row, no
order-item rows, no stock change — or succeeds returning the new order id with
all of its writes committed: one order row, one order-item row per cart line,
and one stock decrement per line (`createOrderEffect`).  The guarantee rests
on sqlite3's implicit transaction: `conn.commit()` is the last statement, and
an exception skips it, discarding the uncommitted writes. -/
theorem c1_place_order_atomic (failAt : Option Nat) (customer_id : Nat)
    (items : List CartLine) (sa pm : List Char) (db : DB) :
    create_order failAt customer_id items sa pm db = (none, db) ∨
    create_order failAt customer_id items sa pm db =
      (some db.next_order_id, createOrderEffect customer_id items sa pm db) :=
  create_order_spec failAt customer_id items sa pm db

set_option maxRecDepth 10000 in
/-- C2 counterexample: the invariant "stock_quantity never goes negative"
fails on a state reachable through the service operations.  Stock a product
with one unit, add it to the cart twice (quantity 1 each time, within the UI's
per-interaction stock bound), and check out: the unguarded decrement at
app.py:332 leaves `stock_quantity = -1`. -/
theorem c2_negative_stock_counterexample :
    ∃ p ∈ (runOps c2Ops).products, p.stock_quantity < 0 := by decide

/-- C2 (amended): stock stays non-negative exactly under the guard the
specification itself proposes in §4.4: if, for every product, the net quantity
the order's lines take of it is at most its current stock, then no product's
stock goes negative — for a successful call and for an aborted one alike.
Without that bound the unguarded decrement drives stock negative (see the
counterexample). -/
theorem c2_stock_nonneg_amended (failAt : Option Nat) (customer_id : Nat)
    (items : List CartLine) (sa pm : List Char) (db : DB)
    (h0 : ∀ p ∈ db.products, 0 ≤ p.stock_quantity)
    (henough : ∀ p ∈ db.products, linesQty items p.product_id ≤ p.stock_quantity) :
    ∀ p ∈ (create_order failAt customer_id items sa pm db).2.products,
      0 ≤ p.stock_quantity := by
  rcases create_order_spec failAt customer_id items sa pm db with h | h <;> rw [h]
  · exact h0
  · intro p hp
    rw [createOrderEffect] at hp
    simp only [List.mem_map] at hp
    rcases hp with ⟨q, hq, rfl⟩
    have h1 := h0 q hq
    have h2 := henough q hq
    simp only []
    omega

theorem c2_stock_nonneg_amended_witness :
    ((create_order none 1 [c2Line] [] [] stockedDB).2.products.all
      (fun p => 0 ≤ p.stock_quantity)) = true := by
  have h := c2_stock_nonneg_amended none 1 [c2Line] [] [] stockedDB
    (by decide) (by decide)
  exact List.all_eq_true.mpr (fun p hp => decide_eq_true (h p hp))

/-! ## Price snapshots and order immutability (claim C4) -/

/-- Every line `get_cart_items` returns carries
`subtotal = quantity * price` with the product's live price, by the JOIN's
computed column. -/
theorem get_cart_items_subtotal (customer_id : Nat) (db : DB) :
    ∀ l ∈ get_cart_items customer_id db, l.subtotal = (l.quantity : ℚ) * l.price := by
  intro l hl
  rw [get_cart_items] at hl
  rcases List.mem_filterMap.mp hl with ⟨e, _, hfe⟩
  by_cases hc : (e.customer_id == customer_id) = true
  · rw [if_pos hc] at hfe
    rcases Option.map_eq_some'.mp hfe with ⟨p, _, hl⟩
    subst hl
    rfl
  · rw [if_neg hc] at hfe
    cases hfe

/-- Every stored item row produced by the per-line INSERTs references the
given order and freezes quantity, unit price and subtotal from one of the cart
lines. -/
theorem newItemRows_fields (order_id : Nat) :
    ∀ (next_item_id : Nat) (items : List CartLine),
      ∀ it ∈ newItemRows order_id next_item_id items,
        it.order_id = order_id ∧
        ∃ l ∈ items, it.quantity = l.quantity ∧ it.unit_price = l.price ∧
          it.subtotal = l.subtotal := by
  intro next_item_id items
  induction items generalizing next_item_id with
  | nil =>
    intro it hit
    cases hit
  | cons l rest ih =>
    intro it hit
    rw [newItemRows] at hit
    rcases List.mem_cons.mp hit with rfl | hit2
    · exact ⟨rfl, l, List.mem_cons_self l rest, rfl, rfl, rfl⟩
    · rcases ih (next_item_id + 1) it hit2 with ⟨ho, l2, hl2, h3⟩
      exact ⟨ho, l2, List.mem_cons_of_mem l hl2, h3⟩

/-- The committed effect of an order keeps every stored order item's id below
the bumped counter. -/
theorem effect_wf (customer_id : Nat) (items : List CartLine) (sa pm : List Char)
    (db : DB) (hwf : ordersWellFormed db) :
    ordersWellFormed (createOrderEffect customer_id items sa pm db) := by
  intro it hit
  rw [createOrderEffect] at hit
  simp only [] at hit
  rcases List.mem_append.mp hit with hold | hnew
  · have := hwf it hold
    show it.order_id < db.next_order_id + 1
    omega
  · have := (newItemRows_fields db.next_order_id db.next_order_item_id items it hnew).1
    show it.order_id < db.next_order_id + 1
    omega

/-- The item rows stored for the new order are exactly the freshly inserted
ones. -/
theorem itemsOfOrder_effect (customer_id : Nat) (items : List CartLine)
    (sa pm : List Char) (db : DB) (hwf : ordersWellFormed db) :
    itemsOfOrder db.next_order_id (createOrderEffect customer_id items sa pm db) =
      newItemRows db.next_order_id db.next_order_item_id items := by
  rw [itemsOfOrder, createOrderEffect]
  show List.filter _ (db.order_items ++ _) = _
  rw [List.filter_append]
  have h1 : db.order_items.filter (fun it => it.order_id == db.next_order_id) = [] := by
    rw [List.filter_eq_nil_iff]
    intro it hit
    have := hwf it hit
    simp only [beq_iff_eq]
    omega
  have h2 : (newItemRows db.next_order_id db.next_order_item_id items).filter
      (fun it => it.order_id == db.next_order_id) =
      newItemRows db.next_order_id db.next_order_item_id items := by
    rw [List.filter_eq_self]
    intro it hit
    have := (newItemRows_fields db.next_order_id db.next_order_item_id items it hit).1
    simp only [beq_iff_eq]
    exact this
  rw [h1, h2, List.nil_append]

/-- The committed effect of a new order does not touch the item rows of any
earlier order. -/
theorem itemsOfOrder_effect_old (customer_id : Nat) (items : List CartLine)
    (sa pm : List Char) (db : DB) (oid : Nat) (hlt : oid < db.next_order_id) :
    itemsOfOrder oid (createOrderEffect customer_id items sa pm db) =
      itemsOfOrder oid db := by
  rw [itemsOfOrder, itemsOfOrder, createOrderEffect]
  show List.filter _ (db.order_items ++ _) = _
  rw [List.filter_append]
  have h2 : (newItemRows db.next_order_id db.next_order_item_id items).filter
      (fun it => it.order_id == oid) = [] := by
    rw [List.filter_eq_nil_iff]
    intro it hit
    have := (newItemRows_fields db.next_order_id db.next_order_item_id items it hit).1
    simp only [beq_iff_eq]
    omega
  rw [h2, List.append_nil]

/-- A step that leaves the order-item table and the order counter alone keeps
the C4 bookkeeping: well-formedness, counter monotonicity, and the item rows
of every existing order. -/
theorem orders_unchanged_aux (db db2 : DB) (hwf : ordersWellFormed db)
    (hitems : db2.order_items = db.order_items)
    (hnext : db2.next_order_id = db.next_order_id) :
    ordersWellFormed db2 ∧ db.next_order_id ≤ db2.next_order_id ∧
    ∀ oid, oid < db.next_order_id → itemsOfOrder oid db2 = itemsOfOrder oid db := by
  refine ⟨?_, by omega, ?_⟩
  · intro it hit
    rw [hitems] at hit
    rw [hnext]
    exact hwf it hit
  · intro oid _
    rw [itemsOfOrder, itemsOfOrder, hitems]

/-- Whatever the admin form handler returns, it has not touched the orders
side of the store. -/
theorem addProductForm_orders (f : ProductForm) (db : DB) (r : Bool × DB)
    (h : addProductForm f db = some r) :
    r.2.order_items = db.order_items ∧ r.2.next_order_id = db.next_order_id := by
  rw [addProductForm] at h
  by_cases h1 : (pyStrip f.name).isEmpty = true
  · rw [if_pos h1] at h
    injection h with h2
    subst h2
    exact ⟨rfl, rfl⟩
  · rw [if_neg h1] at h
    rcases hcat : f.category_id with _ | cid <;> simp only [hcat] at h
    · injection h with h2
      subst h2
      exact ⟨rfl, rfl⟩
    · by_cases h2 : f.price ≤ 0
      · rw [if_pos h2] at h
        injection h with h3
        subst h3
        exact ⟨rfl, rfl⟩
      · rw [if_neg h2] at h
        injection h with h3
        subst h3
        exact ⟨rfl, rfl⟩

/-- One service operation preserves order-item well-formedness, never lowers
the order counter, and never alters the stored item rows of an existing
order. -/
theorem applyOp_items (db : DB) (op : Op) (hwf : ordersWellFormed db) :
    ordersWellFormed (applyOp db op) ∧
    db.next_order_id ≤ (applyOp db op).next_order_id ∧
    ∀ oid, oid < db.next_order_id →
      itemsOfOrder oid (applyOp db op) = itemsOfOrder oid db := by
  cases op with
  | register d =>
    refine orders_unchanged_aux db _ hwf ?_ ?_ <;>
      · rw [applyOp, register_customer]
        split <;> rfl
  | addCategory name description =>
    refine orders_unchanged_aux db _ hwf ?_ ?_ <;>
      · rw [applyOp, add_category]
        split <;> rfl
  | addProduct f =>
    rcases hf : addProductForm f db with _ | ⟨b, db2⟩
    · refine orders_unchanged_aux db _ hwf ?_ ?_ <;> simp only [applyOp, hf]
    · rcases addProductForm_orders f db (b, db2) hf with ⟨hi, hn⟩
      refine orders_unchanged_aux db _ hwf ?_ ?_ <;> simp only [applyOp, hf]
      · exact hi
      · exact hn
  | addToCart c p q =>
    refine orders_unchanged_aux db _ hwf ?_ ?_ <;>
      · rw [applyOp, add_to_cart]
        split <;> rfl
  | checkout c sa pm =>
    have heq : applyOp db (Op.checkout c sa pm) =
        clear_cart c (createOrderEffect c (get_cart_items c db) sa pm db) := by
      simp only [applyOp, create_order_none_eq]
    rw [heq]
    refine ⟨?_, ?_, ?_⟩
    · exact fun it hit => effect_wf c (get_cart_items c db) sa pm db hwf it hit
    · exact Nat.le_succ db.next_order_id
    · intro oid hoid
      exact itemsOfOrder_effect_old c (get_cart_items c db) sa pm db oid hoid
  | clearCart c =>
    exact orders_unchanged_aux db _ hwf rfl rfl
  | tick =>
    exact orders_unchanged_aux db _ hwf rfl rfl

/-- Folding any operation sequence preserves the C4 bookkeeping. -/
theorem foldl_applyOp_items (ops : List Op) :
    ∀ db : DB, ordersWellFormed db →
      ordersWellFormed (ops.foldl applyOp db) ∧
      db.next_order_id ≤ (ops.foldl applyOp db).next_order_id ∧
      ∀ oid, oid < db.next_order_id →
        itemsOfOrder oid (ops.foldl applyOp db) = itemsOfOrder oid db := by
  induction ops with
  | nil =>
    intro db hwf
    exact ⟨hwf, le_refl _, fun oid _ => rfl⟩
  | cons op rest ih =>
    intro db hwf
    rcases applyOp_items db op hwf with ⟨hwf2, hmono, hsame⟩
    rcases ih (applyOp db op) hwf2 with ⟨hwf3, hmono2, hsame2⟩
    refine ⟨hwf3, le_trans hmono hmono2, ?_⟩
    intro oid hoid
    exact (hsame2 oid (lt_of_lt_of_le hoid hmono)).trans (hsame oid hoid)

/-- C4: at checkout, the created order's `total_amount` is the sum of the cart
lines' subtotals; each line satisfies `subtotal = quantity * price`; the
stored item rows are exactly the per-line snapshots, each with
`subtotal = quantity * unit_price` where `unit_price` is the line's price at
order time; and no later service operation (there is none that changes a
product's price, and none that touches stored order items) alters the stored
item rows of the order. -/
theorem c4_order_snapshot (customer_id : Nat) (sa pm : List Char) (db : DB)
    (hwf : ordersWellFormed db) :
    (∀ l ∈ get_cart_items customer_id db,
      l.subtotal = (l.quantity : ℚ) * l.price) ∧
    (checkoutResult customer_id sa pm db).1 = some db.next_order_id ∧
    (checkoutResult customer_id sa pm db).2.orders =
      db.orders ++
        [newOrderRow customer_id (get_cart_items customer_id db) sa pm db] ∧
    (newOrderRow customer_id (get_cart_items customer_id db) sa pm db).total_amount =
      ((get_cart_items customer_id db).map (fun l => l.subtotal)).sum ∧
    itemsOfOrder db.next_order_id (checkoutResult customer_id sa pm db).2 =
      newItemRows db.next_order_id db.next_order_item_id
        (get_cart_items customer_id db) ∧
    (∀ it ∈ itemsOfOrder db.next_order_id (checkoutResult customer_id sa pm db).2,
      it.subtotal = (it.quantity : ℚ) * it.unit_price) ∧
    (∀ ops : List Op,
      itemsOfOrder db.next_order_id
        (ops.foldl applyOp (checkoutResult customer_id sa pm db).2) =
      itemsOfOrder db.next_order_id (checkoutResult customer_id sa pm db).2) := by
  have hck : checkoutResult customer_id sa pm db =
      (some db.next_order_id,
       createOrderEffect customer_id (get_cart_items customer_id db) sa pm db) :=
    create_order_none_eq customer_id (get_cart_items customer_id db) sa pm db
  refine ⟨get_cart_items_subtotal customer_id db, ?_, ?_, rfl, ?_, ?_, ?_⟩
  · rw [hck]
  · rw [hck]
    rfl
  · rw [hck]
    exact itemsOfOrder_effect customer_id (get_cart_items customer_id db) sa pm db hwf
  · rw [hck]
    intro it hit
    show it.subtotal = (it.quantity : ℚ) * it.unit_price
    rw [itemsOfOrder_effect customer_id (get_cart_items customer_id db) sa pm db hwf] at hit
    rcases (newItemRows_fields db.next_order_id db.next_order_item_id
        (get_cart_items customer_id db) it hit).2 with ⟨l, hl, hq, hu, hs⟩
    rw [hs, hq, hu]
    exact get_cart_items_subtotal customer_id db l hl
  · rw [hck]
    intro ops
    have hwf2 : ordersWellFormed
        (createOrderEffect customer_id (get_cart_items customer_id db) sa pm db) :=
      effect_wf customer_id (get_cart_items customer_id db) sa pm db hwf
    exact (foldl_applyOp_items ops _ hwf2).2.2 db.next_order_id
      (Nat.lt_succ_self db.next_order_id)

theorem c4_order_snapshot_witness :
    (checkoutResult 1 "1 Main St".toList "PayPal".toList c4DB).1 =
      some c4DB.next_order_id ∧
    (checkoutResult 1 "1 Main St".toList "PayPal".toList c4DB).2.orders =
      c4DB.orders ++
        [newOrderRow 1 (get_cart_items 1 c4DB) "1 Main St".toList
          "PayPal".toList c4DB] :=
  ⟨(c4_order_snapshot 1 "1 Main St".toList "PayPal".toList c4DB (by decide)).2.1,
   (c4_order_snapshot 1 "1 Main St".toList "PayPal".toList c4DB (by decide)).2.2.1⟩

end ECom
